import Mathlib

/- Verification of the configuration client in src/src/config.ts:
   ConfigSection (load / update of a server-held JSON object) and
   ConfigWithDefaults (defaulted, optionally class-scoped view).
   JavaScript values are modelled by an inductive JSON type; the mutable
   section object by explicit state passing; a promise by an Except value
   parameterised over the server response that eventually settles it. -/

/-- JSON values, as described by the JSONValue type config.ts imports from
./json (that file is not under src/; per the spec the payloads are
arbitrary JSON). The none of an Option JSONValue stands for the JavaScript
undefined where one can occur. -/
inductive JSONValue where
  | null
  | bool (b : Bool)
  | num (n : Int)
  | str (s : String)
  | arr (elements : List JSONValue)
  | obj (fields : List (String × JSONValue))

/-- JSON objects: association lists of fields in JavaScript property order. -/
abbrev JSONObject := List (String × JSONValue)

/-- Property read on a JSON object: the value at the first matching key, or
none (JavaScript undefined) when the key is absent. -/
def getKey : JSONObject → String → Option JSONValue
  | [], _ => none
  | (k, v) :: rest, key => if k = key then some v else getKey rest key

/-- Property assignment on a JSON object: overwrite the value at an existing
key in place, or append a new key at the end, as JavaScript does. -/
def setKey : JSONObject → String → JSONValue → JSONObject
  | [], key, v => [(key, v)]
  | (k, w) :: rest, key, v =>
      if k = key then (k, v) :: rest else (k, w) :: setKey rest key v

/-- Modelled from the spec: utils.extend of jupyter-js-utils (not under
src/), used at line 165 of config.ts as utils.extend(this._data, newdata).
The spec describes it as a shallow merge of the update onto data: keys of
the second object overwrite matching keys of the first, in property order. -/
def extend (first second : JSONObject) : JSONObject :=
  second.foldl (fun acc kv => setKey acc kv.1 kv.2) first

/-- JavaScript truthiness of a JSON value: null, false, 0 and the empty
string are falsy; arrays and objects are always truthy. -/
def truthy : JSONValue → Bool
  | .null => false
  | .bool b => b
  | .num n => n != 0
  | .str s => s != ""
  | .arr _ => true
  | .obj _ => true

/-- JavaScript truthiness of a possibly-undefined value: undefined (none)
is falsy. -/
def truthyOpt : Option JSONValue → Bool
  | none => false
  | some v => truthy v

/-- JavaScript property read on an arbitrary value: reading a property of
null throws a TypeError; reading one of an object yields the field value or
undefined; property reads on the remaining primitives yield undefined. -/
def jsIndex : JSONValue → String → Except String (Option JSONValue)
  | .null, _ => .error "TypeError: Cannot read properties of null"
  | .obj fs, key => .ok (getKey fs key)
  | _, _ => .ok none

mutual

/-- Modelled from the spec: the JSON codec is an external collaborator; this
serializer stands for the JSON.stringify applied to the update body at
line 168 of config.ts. -/
def jsonStringify : JSONValue → String
  | .null => "null"
  | .bool b => cond b "true" "false"
  | .num n => toString n
  | .str s => "\"" ++ s ++ "\""
  | .arr xs => "[" ++ stringifyArr xs ++ "]"
  | .obj fs => "\x7b" ++ stringifyObj fs ++ "\x7d"

/-- Serialization of the elements of a JSON array, comma separated. -/
def stringifyArr : List JSONValue → String
  | [] => ""
  | [x] => jsonStringify x
  | x :: y :: xs => jsonStringify x ++ "," ++ stringifyArr (y :: xs)

/-- Serialization of the fields of a JSON object, comma separated. -/
def stringifyObj : List (String × JSONValue) → String
  | [] => ""
  | [(k, v)] => "\"" ++ k ++ "\":" ++ jsonStringify v
  | (k, v) :: y :: xs => "\"" ++ k ++ "\":" ++ jsonStringify v ++ "," ++ stringifyObj (y :: xs)
end

/-- The response that settles an ajax request, as the callbacks in config.ts
consume it: success.xhr.status and success.data, the JSON-decoded body. -/
structure AjaxSuccess where
  status : Nat
  data : JSONValue

/-- The request handed to utils.ajaxRequest, restricted to the fields
config.ts sets on its copy of the ajax settings. -/
structure AjaxRequest where
  url : String
  method : String
  data : Option String
  dataType : String
  contentType : Option String

/-- State of a ConfigSection instance: the resource url and the local
mirror _data, initialised to null by the class. The ajax settings are
modelled separately (SettingsHeap below) because only their aliasing
behaviour is claimed. -/
structure ConfigSection where
  url : String
  data : JSONValue

/-- Construction of a ConfigSection, lines 101-106 of config.ts. Modelled
from the spec for the external url helpers: the resource path convention is
baseUrl/api/config/name (url-encoding elided). The fresh section has
_data = null. -/
def ConfigSection.fresh (name baseUrl : String) : ConfigSection :=
  { url := baseUrl ++ "/api/config/" ++ name, data := .null }

/-- ConfigSection.load, lines 139-150 of config.ts, applied to the response
that settles its GET request: a non-200 status throws Invalid Status and
leaves _data unchanged; a 200 status stores the response body in _data. -/
def ConfigSection.load (s : ConfigSection) (resp : AjaxSuccess) : Except String ConfigSection :=
  if resp.status ≠ 200 then .error ("Invalid Status: " ++ toString resp.status)
  else .ok { s with data := resp.data }

/-- getConfigSection, lines 86-91 of config.ts: construct a section, load
it, and yield the section on success. -/
def getConfigSection (name baseUrl : String) (resp : AjaxSuccess) : Except String ConfigSection :=
  (ConfigSection.fresh name baseUrl).load resp

/-- Observable outcome of one ConfigSection.update call: the section state
right after the synchronous optimistic merge, the PATCH request sent, and
the settled promise (final section state and resolved value, or the
rejection message). -/
structure UpdateResult where
  optimistic : ConfigSection
  request : AjaxRequest
  outcome : Except String (ConfigSection × JSONValue)

/-- ConfigSection.update, lines 164-180 of config.ts, applied to the
response that settles its ajax request. It first merges newdata onto _data
with utils.extend (a TypeError if _data is not an object, as property
assignment on null or another primitive would throw), then sends a PATCH
whose body is the serialization of newdata alone; a 200 response overwrites
_data with the response body and resolves with it, any other status throws
Invalid Status, leaving the optimistic merge in place. -/
def ConfigSection.update (s : ConfigSection) (newdata : JSONObject) (resp : AjaxSuccess) :
    Except String UpdateResult :=
  match s.data with
  | .obj d =>
      let s1 : ConfigSection := { s with data := .obj (extend d newdata) }
      let req : AjaxRequest :=
        { url := s.url, method := "PATCH", data := some (jsonStringify (.obj newdata)),
          dataType := "json", contentType := some "application/json" }
      let outcome : Except String (ConfigSection × JSONValue) :=
        if resp.status ≠ 200 then .error ("Invalid Status: " ++ toString resp.status)
        else .ok ({ s1 with data := resp.data }, resp.data)
      .ok { optimistic := s1, request := req, outcome := outcome }
  | _ => .error "TypeError: property assignment on a non-object"

/-- Section state once the promise of an update has settled: the post-200
state on success, the optimistic state on rejection (nothing is rolled
back). -/
def UpdateResult.finalSection (r : UpdateResult) : ConfigSection :=
  match r.outcome with
  | .ok p => p.1
  | .error _ => r.optimistic

/-- One operation of a section lifetime: a load or an update, each paired
with the response that settles it. -/
inductive Op where
  | load (resp : AjaxSuccess)
  | update (newdata : JSONObject) (resp : AjaxSuccess)

/-- State transition of a section under one operation: a rejected operation
leaves the state at whatever had already been written (nothing for a load,
the optimistic merge for an update). -/
def stepOp (s : ConfigSection) : Op → ConfigSection
  | .load resp =>
      match s.load resp with
      | .ok s2 => s2
      | .error _ => s
  | .update newdata resp =>
      match s.update newdata resp with
      | .ok r => r.finalSection
      | .error _ => s

/-- State of a ConfigWithDefaults, lines 196-200 of config.ts: the defaults
map (empty when the option is omitted) and the class name (empty string
when omitted). The wrapped section is shared mutable state and is passed to
get and set explicitly as the current ConfigSection value. -/
structure ConfigWithDefaults where
  defaults : JSONObject
  className : String

/-- ConfigWithDefaults._classData, lines 238-244 of config.ts: with a class
name, read data[className] (a TypeError while data is still null) and fall
back to an empty object when that value is falsy; without one, return data
itself. -/
def ConfigWithDefaults.classData (c : ConfigWithDefaults) (sec : ConfigSection) :
    Except String JSONValue :=
  if c.className ≠ "" then
    match jsIndex sec.data c.className with
    | .error e => .error e
    | .ok v => .ok (if truthyOpt v then v.getD .null else .obj [])
  else .ok sec.data

/-- ConfigWithDefaults.get, lines 205-207 of config.ts:
this._classData()[key] falling back to this._defaults[key] when falsy. -/
def ConfigWithDefaults.get (c : ConfigWithDefaults) (sec : ConfigSection) (key : String) :
    Except String (Option JSONValue) :=
  match c.classData sec with
  | .error e => .error e
  | .ok cd =>
      match jsIndex cd key with
      | .error e => .error e
      | .ok v => .ok (if truthyOpt v then v else getKey c.defaults key)

/-- Restatement of get following the words of the spec, for comparison with
the implementation: look the key up in the class-scoped data — the object
at data[className] when a class name is set, substituting an empty map when
that entry is absent or falsy, and data itself otherwise — and return
defaults[key] exactly when the scoped lookup yields a falsy value. -/
def ConfigWithDefaults.getSpec (c : ConfigWithDefaults) (d : JSONObject) (key : String) :
    Option JSONValue :=
  let scopedData : JSONObject :=
    if c.className ≠ "" then
      match getKey d c.className with
      | some (.obj fs) => fs
      | _ => []
    else d
  let v := getKey scopedData key
  if truthyOpt v then v else getKey c.defaults key

/-- ConfigWithDefaults.set, lines 220-230 of config.ts: build the
single-key object, wrap it under the class name when one is set, and
delegate to section.update, returning its promise unchanged. -/
def ConfigWithDefaults.set (c : ConfigWithDefaults) (sec : ConfigSection)
    (key : String) (value : JSONValue) (resp : AjaxSuccess) : Except String UpdateResult :=
  let d : JSONObject := [(key, value)]
  if c.className ≠ "" then
    sec.update [(c.className, .obj d)] resp
  else
    sec.update d resp

/-- Heap of ajax-settings objects, for the aliasing claim about the
ajaxSettings property: one cell per live settings object, a reference being
an index into the heap; mutating an object is writing its cell. -/
structure SettingsHeap where
  cells : List JSONObject

/-- Allocation of a fresh settings object on the heap. -/
def SettingsHeap.alloc (h : SettingsHeap) (v : JSONObject) : SettingsHeap × Nat :=
  (⟨h.cells ++ [v]⟩, h.cells.length)

/-- Contents of the settings object a reference points to. -/
def SettingsHeap.read (h : SettingsHeap) (r : Nat) : JSONObject :=
  (h.cells.get? r).getD []

/-- Mutation of the settings object a reference points to. -/
def SettingsHeap.write (h : SettingsHeap) (r : Nat) (v : JSONObject) : SettingsHeap :=
  ⟨h.cells.set r v⟩

/-- Modelled from the spec: utils.copy of jupyter-js-utils (not under src/)
deep-copies a settings object; on the heap it allocates a fresh cell with
the same contents. -/
def copySettings (h : SettingsHeap) (r : Nat) : SettingsHeap × Nat :=
  h.alloc (h.read r)

/-- ConfigSection ajaxSettings getter, lines 111-113 of config.ts: return
utils.copy of the internal _ajaxSettings object. -/
def getAjaxSettings (h : SettingsHeap) (internalRef : Nat) : SettingsHeap × Nat :=
  copySettings h internalRef

/-- ConfigSection ajaxSettings setter, lines 117-119 of config.ts: store
utils.copy of the supplied object as the new internal _ajaxSettings. -/
def setAjaxSettings (h : SettingsHeap) (valueRef : Nat) : SettingsHeap × Nat :=
  copySettings h valueRef

theorem getKey_setKey_self (d : JSONObject) (k : String) (v : JSONValue) :
    getKey (setKey d k v) k = some v := by
  induction d with
  | nil => simp [setKey, getKey]
  | cons kv rest ih =>
      obtain ⟨k1, w⟩ := kv
      by_cases h : k1 = k
      · subst h; simp [setKey, getKey]
      · simp [setKey, getKey, h, ih]

theorem getKey_setKey_ne (d : JSONObject) (k k2 : String) (v : JSONValue) (h : k2 ≠ k) :
    getKey (setKey d k v) k2 = getKey d k2 := by
  induction d with
  | nil => simp [setKey, getKey, Ne.symm h]
  | cons kv rest ih =>
      obtain ⟨k1, w⟩ := kv
      by_cases h1 : k1 = k
      · subst h1
        simp [setKey, getKey, Ne.symm h]
      · by_cases h2 : k1 = k2
        · subst h2; simp [setKey, getKey, h1]
        · simp [setKey, getKey, h1, h2, ih]

theorem getKey_eq_none_of_not_mem (p : JSONObject) (key : String)
    (h : key ∉ p.map Prod.fst) : getKey p key = none := by
  induction p with
  | nil => rfl
  | cons kv rest ih =>
      obtain ⟨k1, v1⟩ := kv
      simp only [List.map_cons, List.mem_cons, not_or] at h
      simp [getKey, Ne.symm h.1, ih h.2]

theorem getKey_extend_none (p d : JSONObject) (key : String) (h : getKey p key = none) :
    getKey (extend d p) key = getKey d key := by
  induction p generalizing d with
  | nil => simp [extend]
  | cons kv rest ih =>
      obtain ⟨k1, v1⟩ := kv
      by_cases hk : k1 = key
      · subst hk; simp [getKey] at h
      · have hrest : getKey rest key = none := by
          simpa [getKey, hk] using h
        rw [show extend d ((k1, v1) :: rest) = extend (setKey d k1 v1) rest from rfl]
        rw [ih _ hrest]
        exact getKey_setKey_ne d k1 key v1 (Ne.symm hk)

theorem getKey_extend_some (p d : JSONObject) (key : String) (v : JSONValue)
    (hp : (p.map Prod.fst).Nodup) (h : getKey p key = some v) :
    getKey (extend d p) key = some v := by
  induction p generalizing d with
  | nil => simp [getKey] at h
  | cons kv rest ih =>
      obtain ⟨k1, v1⟩ := kv
      simp only [List.map_cons, List.nodup_cons] at hp
      rw [show extend d ((k1, v1) :: rest) = extend (setKey d k1 v1) rest from rfl]
      by_cases hk : k1 = key
      · subst hk
        have hv : v1 = v := by simpa [getKey] using h
        subst hv
        have hnone : getKey rest k1 = none := getKey_eq_none_of_not_mem rest k1 hp.1
        rw [getKey_extend_none rest _ k1 hnone]
        exact getKey_setKey_self d k1 v1
      · have hrest : getKey rest key = some v := by simpa [getKey, hk] using h
        exact ih _ hp.2 hrest

/-- Claim C1 counterexample: the claim that ConfigSection data always equals
the body of the most recent status-200 response and is never changed by a
failing operation is false on the code: after a successful load with body
obj [] and an update settled by a status-201 response, data holds the
optimistic merge of the update, which is not the body of any successful
response. -/
theorem c1_counterexample :
    (stepOp (stepOp (ConfigSection.fresh "test" "base") (Op.load ⟨200, JSONValue.obj []⟩))
        (Op.update [("foo", JSONValue.str "bar")] ⟨201, JSONValue.obj []⟩)).data
      = JSONValue.obj [("foo", JSONValue.str "bar")] ∧
    JSONValue.obj [("foo", JSONValue.str "bar")] ≠ JSONValue.obj [] := by
  refine ⟨rfl, ?_⟩
  simp

/-- Claim C1 as amended: after each load or update operation, data equals
the body of that response when its status was 200; a failed load leaves
data unchanged; a failed update leaves data at the shallow merge of its
argument onto the previous data — so across any sequence of operations,
data equals the most recent successful response body only as further
overwritten by the optimistic merges of failed updates. -/
theorem c1_amended (s : ConfigSection) (resp : AjaxSuccess) (newdata d : JSONObject)
    (hd : s.data = .obj d) :
    (resp.status = 200 →
       stepOp s (.load resp) = { s with data := resp.data } ∧
       (stepOp s (.update newdata resp)).data = resp.data) ∧
    (resp.status ≠ 200 →
       stepOp s (.load resp) = s ∧
       (stepOp s (.update newdata resp)).data = JSONValue.obj (extend d newdata)) := by
  obtain ⟨u, dta⟩ := s
  dsimp only at hd
  subst hd
  constructor
  · intro h200
    constructor <;>
      simp [stepOp, ConfigSection.load, ConfigSection.update, UpdateResult.finalSection, h200]
  · intro hne
    constructor <;>
      simp [stepOp, ConfigSection.load, ConfigSection.update, UpdateResult.finalSection, hne]

/-- Witness for the amended claim C1 at a concrete failed update. -/
theorem c1_amended_witness :
    (stepOp ⟨"u", JSONValue.obj []⟩ (Op.update [("a", JSONValue.null)] ⟨201, JSONValue.obj []⟩)).data
      = JSONValue.obj (extend [] [("a", JSONValue.null)]) :=
  ((c1_amended ⟨"u", JSONValue.obj []⟩ ⟨201, JSONValue.obj []⟩ [("a", JSONValue.null)] [] rfl).2
    (by decide)).2

/-- Claim C2: when the response settling an update has a status other than
200, the promise rejects with the Invalid Status error and the optimistic
shallow merge performed before the request is not rolled back — after the
rejection the section data still holds the merged value. -/
theorem c2_update_failure_keeps_merge (s : ConfigSection) (p d : JSONObject)
    (resp : AjaxSuccess) (hd : s.data = .obj d) (hst : resp.status ≠ 200) :
    ∃ r, s.update p resp = .ok r ∧
      r.outcome = .error ("Invalid Status: " ++ toString resp.status) ∧
      r.finalSection.data = .obj (extend d p) ∧
      r.optimistic.data = .obj (extend d p) := by
  obtain ⟨u, dta⟩ := s
  dsimp only at hd
  subst hd
  simp only [ConfigSection.update]
  refine ⟨_, rfl, ?_, ?_, ?_⟩ <;> simp [UpdateResult.finalSection, hst]

/-- Witness for claim C2 at a concrete update settled by a 500 response. -/
theorem c2_witness :
    ∃ r, ConfigSection.update ⟨"u", JSONValue.obj [("a", JSONValue.num 1)]⟩
        [("b", JSONValue.num 2)] ⟨500, JSONValue.obj []⟩ = .ok r ∧
      r.outcome = .error ("Invalid Status: " ++ toString (500 : Nat)) ∧
      r.finalSection.data = .obj (extend [("a", JSONValue.num 1)] [("b", JSONValue.num 2)]) ∧
      r.optimistic.data = .obj (extend [("a", JSONValue.num 1)] [("b", JSONValue.num 2)]) :=
  c2_update_failure_keeps_merge _ _ _ _ rfl (by decide)

/-- Claim C3: on both load and update, a response whose status differs from
200 rejects the promise with a message that is exactly the string
Invalid Status followed by a colon, a space and the decimal status code,
while a status of exactly 200 makes the operation succeed. -/
theorem c3_invalid_status (s : ConfigSection) (resp : AjaxSuccess) (newdata d : JSONObject)
    (hd : s.data = .obj d) :
    (resp.status ≠ 200 →
       s.load resp = .error ("Invalid Status: " ++ toString resp.status) ∧
       ∃ r, s.update newdata resp = .ok r ∧
         r.outcome = .error ("Invalid Status: " ++ toString resp.status)) ∧
    (resp.status = 200 →
       s.load resp = .ok { s with data := resp.data } ∧
       ∃ r, s.update newdata resp = .ok r ∧
         r.outcome = .ok (⟨s.url, resp.data⟩, resp.data)) := by
  obtain ⟨u, dta⟩ := s
  dsimp only at hd
  subst hd
  constructor
  · intro hst
    refine ⟨by simp [ConfigSection.load, hst], ?_⟩
    simp only [ConfigSection.update]
    exact ⟨_, rfl, by simp [hst]⟩
  · intro h200
    refine ⟨by simp [ConfigSection.load, h200], ?_⟩
    simp only [ConfigSection.update]
    exact ⟨_, rfl, by simp [h200]⟩

/-- Witness for claim C3: a load settled by a 201 response rejects with
Invalid Status 201, as in the tests, and a load settled by a 200 response
stores the body. -/
theorem c3_witness :
    ConfigSection.load ⟨"u", JSONValue.obj []⟩ ⟨201, JSONValue.obj []⟩
      = .error ("Invalid Status: " ++ toString (201 : Nat)) ∧
    ConfigSection.load ⟨"u", JSONValue.obj []⟩ ⟨200, JSONValue.obj [("foo", JSONValue.str "bar")]⟩
      = .ok ⟨"u", JSONValue.obj [("foo", JSONValue.str "bar")]⟩ :=
  ⟨((c3_invalid_status ⟨"u", JSONValue.obj []⟩ ⟨201, JSONValue.obj []⟩ [] [] rfl).1 (by decide)).1,
   ((c3_invalid_status ⟨"u", JSONValue.obj []⟩ ⟨200, JSONValue.obj [("foo", JSONValue.str "bar")]⟩
      [] [] rfl).2 rfl).1⟩

/-- Claim C4: update synchronously and unconditionally (for every settling
response, before its status is examined) replaces data with the shallow
merge of the argument onto the previous data: every key of the argument
maps to its value there, overwriting any matching key, and every other key
keeps its previous value. -/
theorem c4_optimistic_shallow_merge (s : ConfigSection) (p d : JSONObject)
    (resp : AjaxSuccess) (hd : s.data = .obj d) (hp : (p.map Prod.fst).Nodup) :
    ∃ r, s.update p resp = .ok r ∧
      r.optimistic.data = .obj (extend d p) ∧
      (∀ key v, getKey p key = some v → getKey (extend d p) key = some v) ∧
      (∀ key, getKey p key = none → getKey (extend d p) key = getKey d key) := by
  obtain ⟨u, dta⟩ := s
  dsimp only at hd
  subst hd
  simp only [ConfigSection.update]
  refine ⟨_, rfl, rfl, ?_, ?_⟩
  · intro key v h
    exact getKey_extend_some p d key v hp h
  · intro key h
    exact getKey_extend_none p d key h

/-- Witness for claim C4 at a concrete overlapping merge. -/
theorem c4_witness :
    ∃ r, ConfigSection.update ⟨"u", JSONValue.obj [("a", JSONValue.num 1), ("b", JSONValue.num 2)]⟩
        [("b", JSONValue.num 3), ("c", JSONValue.num 4)] ⟨200, JSONValue.obj []⟩ = .ok r ∧
      r.optimistic.data
        = .obj (extend [("a", JSONValue.num 1), ("b", JSONValue.num 2)]
            [("b", JSONValue.num 3), ("c", JSONValue.num 4)]) ∧
      (∀ key v, getKey [("b", JSONValue.num 3), ("c", JSONValue.num 4)] key = some v →
         getKey (extend [("a", JSONValue.num 1), ("b", JSONValue.num 2)]
           [("b", JSONValue.num 3), ("c", JSONValue.num 4)]) key = some v) ∧
      (∀ key, getKey [("b", JSONValue.num 3), ("c", JSONValue.num 4)] key = none →
         getKey (extend [("a", JSONValue.num 1), ("b", JSONValue.num 2)]
           [("b", JSONValue.num 3), ("c", JSONValue.num 4)]) key
           = getKey [("a", JSONValue.num 1), ("b", JSONValue.num 2)] key) :=
  c4_optimistic_shallow_merge _ _ _ _ rfl (by decide)

/-- Claim C5: the PATCH request of an update carries as body the JSON
serialization of the update argument alone, and a 200 response replaces
data wholesale with the response body and resolves the promise with that
same body. -/
theorem c5_patch_body_and_reconcile (s : ConfigSection) (p d : JSONObject)
    (resp : AjaxSuccess) (hd : s.data = .obj d) :
    ∃ r, s.update p resp = .ok r ∧
      r.request.method = "PATCH" ∧
      r.request.data = some (jsonStringify (.obj p)) ∧
      (resp.status = 200 → ∃ s2, r.outcome = .ok (s2, resp.data) ∧ s2.data = resp.data) := by
  obtain ⟨u, dta⟩ := s
  dsimp only at hd
  subst hd
  simp only [ConfigSection.update]
  refine ⟨_, rfl, rfl, rfl, ?_⟩
  intro h200
  exact ⟨⟨u, resp.data⟩, by simp [h200], rfl⟩

/-- Witness for claim C5 at a concrete update, also checking that the
serialized body differs from the serialization of the merged full object
there. -/
theorem c5_witness :
    (∃ r, ConfigSection.update ⟨"u", JSONValue.obj [("a", JSONValue.num 1)]⟩
        [("b", JSONValue.num 2)]
        ⟨200, JSONValue.obj [("a", JSONValue.num 1), ("b", JSONValue.num 2)]⟩ = .ok r ∧
      r.request.method = "PATCH" ∧
      r.request.data = some (jsonStringify (.obj [("b", JSONValue.num 2)])) ∧
      ((200 : Nat) = 200 → ∃ s2,
         r.outcome = .ok (s2, JSONValue.obj [("a", JSONValue.num 1), ("b", JSONValue.num 2)]) ∧
         s2.data = JSONValue.obj [("a", JSONValue.num 1), ("b", JSONValue.num 2)])) ∧
    jsonStringify (.obj [("b", JSONValue.num 2)])
      ≠ jsonStringify (.obj (extend [("a", JSONValue.num 1)] [("b", JSONValue.num 2)])) :=
  ⟨c5_patch_body_and_reconcile _ _ _ _ rfl, by decide⟩

/-- Claim C6: get looks the key up in the class-scoped data — the object at
data of the class name when one is set, substituting an empty map when that
entry is absent or falsy, and data itself otherwise — and returns the
defaults entry exactly when the scoped lookup yields a falsy value
(undefined, null, false, 0 or the empty string), otherwise the scoped
value; stated as agreement with getSpec, the transcription of the words of
the spec. The hypothesis keeps truthy class entries objects, as both the
spec and the declared JSONObject type presuppose. -/
theorem c6_get_matches_spec (c : ConfigWithDefaults) (sec : ConfigSection) (d : JSONObject)
    (key : String) (hd : sec.data = .obj d)
    (hcls : ∀ v, getKey d c.className = some v → truthy v = true →
       ∃ fs, v = JSONValue.obj fs) :
    c.get sec key = .ok (c.getSpec d key) := by
  obtain ⟨u, dta⟩ := sec
  dsimp only at hd
  subst hd
  obtain ⟨dfl, cn⟩ := c
  dsimp only at hcls
  by_cases hcn : cn = ""
  · subst hcn
    simp [ConfigWithDefaults.get, ConfigWithDefaults.classData, ConfigWithDefaults.getSpec,
      jsIndex]
  · cases hv : getKey d cn with
    | none =>
        simp [ConfigWithDefaults.get, ConfigWithDefaults.classData, ConfigWithDefaults.getSpec,
          jsIndex, hcn, hv, truthyOpt, getKey]
    | some w =>
        by_cases ht : truthy w = true
        · obtain ⟨fs, rfl⟩ := hcls w hv ht
          simp [ConfigWithDefaults.get, ConfigWithDefaults.classData, ConfigWithDefaults.getSpec,
            jsIndex, hcn, hv, truthyOpt, ht]
        · cases w <;>
            simp_all [ConfigWithDefaults.get, ConfigWithDefaults.classData,
              ConfigWithDefaults.getSpec, jsIndex, truthyOpt, truthy, getKey]

/-- Witness for claim C6 at the configuration of the tests: className
testclass, defaults holding spam, section data scoping foo under
testclass. -/
theorem c6_witness :
    ConfigWithDefaults.get ⟨[("spam", JSONValue.str "eggs")], "testclass"⟩
        ⟨"u", JSONValue.obj [("testclass", JSONValue.obj [("foo", JSONValue.str "bar")])]⟩ "spam"
      = .ok (ConfigWithDefaults.getSpec ⟨[("spam", JSONValue.str "eggs")], "testclass"⟩
          [("testclass", JSONValue.obj [("foo", JSONValue.str "bar")])] "spam") :=
  c6_get_matches_spec _ _ _ _ rfl (by
    intro v hv ht
    refine ⟨[("foo", JSONValue.str "bar")], ?_⟩
    simpa [getKey] using hv.symm)

/-- Claim C7: set delegates to update of the wrapped section with exactly
the single-key payload, wrapped one level deeper under the class name when
one is set, returning that promise unchanged; and with a class name set the
optimistic section data holds the value under the class name and key
synchronously, whatever response later settles the round trip. -/
theorem c7_set_payload_and_sync (c : ConfigWithDefaults) (sec : ConfigSection) (d : JSONObject)
    (key : String) (value : JSONValue) (resp : AjaxSuccess) (hd : sec.data = .obj d) :
    (c.className = "" → c.set sec key value resp = sec.update [(key, value)] resp) ∧
    (c.className ≠ "" →
       c.set sec key value resp = sec.update [(c.className, .obj [(key, value)])] resp ∧
       ∃ r, c.set sec key value resp = .ok r ∧
         ∃ d2, r.optimistic.data = .obj d2 ∧
           getKey d2 c.className = some (.obj [(key, value)]) ∧
           getKey [(key, value)] key = some value) := by
  constructor
  · intro h
    simp [ConfigWithDefaults.set, h]
  · intro h
    refine ⟨by simp [ConfigWithDefaults.set, h], ?_⟩
    obtain ⟨u, dta⟩ := sec
    dsimp only at hd
    subst hd
    simp only [ConfigWithDefaults.set, if_pos h, ConfigSection.update]
    refine ⟨_, rfl, extend d [(c.className, JSONValue.obj [(key, value)])], rfl, ?_,
      by simp [getKey]⟩
    rw [show extend d [(c.className, JSONValue.obj [(key, value)])]
          = setKey d c.className (JSONValue.obj [(key, value)]) from rfl]
    exact getKey_setKey_self _ _ _

/-- Witness for claim C7 at the configuration of the tests: set foo to bar
under className testclass on a section holding the empty object. -/
theorem c7_witness :
    ConfigWithDefaults.set ⟨[], "testclass"⟩ ⟨"u", JSONValue.obj []⟩ "foo"
        (JSONValue.str "bar") ⟨200, JSONValue.obj []⟩
      = ConfigSection.update ⟨"u", JSONValue.obj []⟩
          [("testclass", JSONValue.obj [("foo", JSONValue.str "bar")])] ⟨200, JSONValue.obj []⟩ ∧
    ∃ r, ConfigWithDefaults.set ⟨[], "testclass"⟩ ⟨"u", JSONValue.obj []⟩ "foo"
        (JSONValue.str "bar") ⟨200, JSONValue.obj []⟩ = .ok r ∧
      ∃ d2, r.optimistic.data = .obj d2 ∧
        getKey d2 "testclass" = some (.obj [("foo", JSONValue.str "bar")]) ∧
        getKey [("foo", JSONValue.str "bar")] "foo" = some (JSONValue.str "bar") :=
  (c7_set_payload_and_sync ⟨[], "testclass"⟩ ⟨"u", JSONValue.obj []⟩ [] "foo"
    (JSONValue.str "bar") ⟨200, JSONValue.obj []⟩ rfl).2 (by decide)

/-- Claim C8 counterexample: on a section whose data still holds the
initial null (load not yet completed), get throws the TypeError of the
null property read instead of returning the defaults entry the claim
announces. -/
theorem c8_counterexample :
    ConfigWithDefaults.get ⟨[("spam", JSONValue.str "eggs")], "testclass"⟩
        (ConfigSection.fresh "test" "base") "spam"
      = .error "TypeError: Cannot read properties of null" ∧
    (Except.error "TypeError: Cannot read properties of null"
       : Except String (Option JSONValue))
      ≠ .ok (some (JSONValue.str "eggs")) := by
  refine ⟨rfl, ?_⟩
  simp

/-- Claim C8 as amended: every get on a ConfigWithDefaults whose wrapped
section has not completed its initial load (data still the initial null)
throws a TypeError from the property read on null — with or without a
class name — rather than returning the empty or default fallback. -/
theorem c8_amended (c : ConfigWithDefaults) (sec : ConfigSection) (key : String)
    (hd : sec.data = .null) :
    c.get sec key = .error "TypeError: Cannot read properties of null" := by
  obtain ⟨u, dta⟩ := sec
  dsimp only at hd
  subst hd
  obtain ⟨dfl, cn⟩ := c
  by_cases h : cn = ""
  · subst h
    simp [ConfigWithDefaults.get, ConfigWithDefaults.classData, jsIndex]
  · simp [ConfigWithDefaults.get, ConfigWithDefaults.classData, jsIndex, h]

/-- Witness for the amended claim C8 on an unloaded section without a class
name. -/
theorem c8_amended_witness :
    ConfigWithDefaults.get ⟨[("spam", JSONValue.str "eggs")], ""⟩ ⟨"u", JSONValue.null⟩ "spam"
      = .error "TypeError: Cannot read properties of null" :=
  c8_amended ⟨[("spam", JSONValue.str "eggs")], ""⟩ ⟨"u", JSONValue.null⟩ "spam" rfl

/-- Claim C9: reading the ajaxSettings property yields a copy of the
internal settings object and writing it stores a copy of the supplied
object, so mutating the object obtained from the getter leaves the internal
settings unchanged, and mutating an object after passing it to the setter
leaves the stored settings unchanged. -/
theorem c9_ajax_settings_copy (h : SettingsHeap) (internalRef callerRef : Nat) (v : JSONObject)
    (hi : internalRef < h.cells.length) (hc : callerRef < h.cells.length) :
    ((getAjaxSettings h internalRef).1.read (getAjaxSettings h internalRef).2
        = h.read internalRef) ∧
    (((getAjaxSettings h internalRef).1.write (getAjaxSettings h internalRef).2 v).read internalRef
        = h.read internalRef) ∧
    ((setAjaxSettings h callerRef).1.read (setAjaxSettings h callerRef).2 = h.read callerRef) ∧
    (((setAjaxSettings h callerRef).1.write callerRef v).read (setAjaxSettings h callerRef).2
        = (setAjaxSettings h callerRef).1.read (setAjaxSettings h callerRef).2) := by
  refine ⟨?_, ?_, ?_, ?_⟩
  · simp [getAjaxSettings, copySettings, SettingsHeap.alloc, SettingsHeap.read,
      List.get?_concat_length]
  · simp only [getAjaxSettings, copySettings, SettingsHeap.alloc, SettingsHeap.write,
      SettingsHeap.read]
    rw [List.get?_set_ne _ _ (Ne.symm (Nat.ne_of_lt hi))]
    rw [List.get?_append hi]
  · simp [setAjaxSettings, copySettings, SettingsHeap.alloc, SettingsHeap.read,
      List.get?_concat_length]
  · simp only [setAjaxSettings, copySettings, SettingsHeap.alloc, SettingsHeap.write,
      SettingsHeap.read]
    rw [List.get?_set_ne _ _ (Nat.ne_of_lt hc)]

/-- Witness for claim C9 on a one-cell heap holding a settings object. -/
theorem c9_witness :
    ((getAjaxSettings ⟨[[("cache", JSONValue.bool true)]]⟩ 0).1.read
        (getAjaxSettings ⟨[[("cache", JSONValue.bool true)]]⟩ 0).2
      = SettingsHeap.read ⟨[[("cache", JSONValue.bool true)]]⟩ 0) ∧
    (((getAjaxSettings ⟨[[("cache", JSONValue.bool true)]]⟩ 0).1.write
        (getAjaxSettings ⟨[[("cache", JSONValue.bool true)]]⟩ 0).2 []).read 0
      = SettingsHeap.read ⟨[[("cache", JSONValue.bool true)]]⟩ 0) ∧
    ((setAjaxSettings ⟨[[("cache", JSONValue.bool true)]]⟩ 0).1.read
        (setAjaxSettings ⟨[[("cache", JSONValue.bool true)]]⟩ 0).2
      = SettingsHeap.read ⟨[[("cache", JSONValue.bool true)]]⟩ 0) ∧
    (((setAjaxSettings ⟨[[("cache", JSONValue.bool true)]]⟩ 0).1.write 0 []).read
        (setAjaxSettings ⟨[[("cache", JSONValue.bool true)]]⟩ 0).2
      = (setAjaxSettings ⟨[[("cache", JSONValue.bool true)]]⟩ 0).1.read
          (setAjaxSettings ⟨[[("cache", JSONValue.bool true)]]⟩ 0).2) :=
  c9_ajax_settings_copy ⟨[[("cache", JSONValue.bool true)]]⟩ 0 0 [] (by decide) (by decide)

/-- Claim C10: with a class name set, set replaces the whole local
sub-object at the class name by the single-key object, because the
optimistic merge is shallow at the top level only: whatever sub-object was
there before, afterwards the class entry is exactly the single-key object,
and every sibling key is absent from it. -/
theorem c10_set_replaces_class_object (c : ConfigWithDefaults) (sec : ConfigSection)
    (d prev : JSONObject) (key : String) (value : JSONValue) (resp : AjaxSuccess)
    (hd : sec.data = .obj d) (hc : c.className ≠ "")
    (hprev : getKey d c.className = some (.obj prev)) :
    ∃ r, c.set sec key value resp = .ok r ∧
      ∃ d2, r.optimistic.data = .obj d2 ∧
        getKey d2 c.className = some (.obj [(key, value)]) ∧
        ∀ sib, sib ≠ key → getKey [(key, value)] sib = none := by
  obtain ⟨u, dta⟩ := sec
  dsimp only at hd
  subst hd
  simp only [ConfigWithDefaults.set, if_pos hc, ConfigSection.update]
  refine ⟨_, rfl, extend d [(c.className, JSONValue.obj [(key, value)])], rfl, ?_, ?_⟩
  · rw [show extend d [(c.className, JSONValue.obj [(key, value)])]
        = setKey d c.className (JSONValue.obj [(key, value)]) from rfl]
    exact getKey_setKey_self _ _ _
  · intro sib hsib
    simp [getKey, Ne.symm hsib]

/-- Witness for claim C10: the class sub-object previously holding foo and
baz is replaced wholesale by the single spam entry. -/
theorem c10_witness :
    ∃ r, ConfigWithDefaults.set ⟨[], "testclass"⟩
        ⟨"u", JSONValue.obj [("testclass",
           JSONValue.obj [("foo", JSONValue.str "bar"), ("baz", JSONValue.str "qux")])]⟩
        "spam" (JSONValue.str "eggs") ⟨200, JSONValue.obj []⟩ = .ok r ∧
      ∃ d2, r.optimistic.data = .obj d2 ∧
        getKey d2 "testclass" = some (.obj [("spam", JSONValue.str "eggs")]) ∧
        ∀ sib, sib ≠ "spam" → getKey [("spam", JSONValue.str "eggs")] sib = none :=
  c10_set_replaces_class_object ⟨[], "testclass"⟩
    ⟨"u", JSONValue.obj [("testclass",
       JSONValue.obj [("foo", JSONValue.str "bar"), ("baz", JSONValue.str "qux")])]⟩
    [("testclass", JSONValue.obj [("foo", JSONValue.str "bar"), ("baz", JSONValue.str "qux")])]
    [("foo", JSONValue.str "bar"), ("baz", JSONValue.str "qux")]
    "spam" (JSONValue.str "eggs") ⟨200, JSONValue.obj []⟩ rfl (by decide) rfl
